import Mathlib

/-!
Verification of the lifelib cashflow-projection formula files and of the
lazy memoizing evaluation engine they run on.

Part 1 embeds `ifrs17sim/model/OuterProj/InnerProj/PV/__init__.py`:
each cell is a function of the time index `t`, the exogenous series
(`PremIncome`, `DiscRate`, ...) are fields of a context structure `PVCtx`.

Part 2 embeds the cells of
`libraries/savings/CashValue_ME/Projection/__init__.py` that the claims
touch, per model point (array values are elementwise, so each model
point is treated separately, matching numpy broadcasting semantics).

Part 3 models the evaluation engine (cache, in-progress chain, cycle
detection) from the specification, since the engine itself (modelx) is
not part of the two source files.
-/

namespace PV

/-- Context of the PV space: the projection horizon `last_t` and the
exogenous cashflow series read from the parent space. -/
structure PVCtx where
  last_t : ℕ
  PremIncome : ℕ → ℚ
  BenefitDeath : ℕ → ℚ
  BenefitMat : ℕ → ℚ
  BenefitSurr : ℕ → ℚ
  BenefitTotal : ℕ → ℚ
  ExpsAcq : ℕ → ℚ
  ExpsCommTotal : ℕ → ℚ
  ExpsMaint : ℕ → ℚ
  ExpsTotal : ℕ → ℚ
  InsurIF_Beg1 : ℕ → ℚ
  DiscRate : ℕ → ℚ

/-- Present value of death benefits. -/
def PV_BenefitDeath (c : PVCtx) (t : ℕ) : ℚ :=
  if h : t > c.last_t then 0
  else (-c.BenefitDeath t + PV_BenefitDeath c (t+1)) / (1 + c.DiscRate t)
termination_by c.last_t + 1 - t
decreasing_by omega

/-- Present value of maturity benefits. -/
def PV_BenefitMat (c : PVCtx) (t : ℕ) : ℚ :=
  if h : t > c.last_t then 0
  else (-c.BenefitMat t + PV_BenefitMat c (t+1)) / (1 + c.DiscRate t)
termination_by c.last_t + 1 - t
decreasing_by omega

/-- Present value of surrender benefits. -/
def PV_BenefitSurr (c : PVCtx) (t : ℕ) : ℚ :=
  if h : t > c.last_t then 0
  else (-c.BenefitSurr t + PV_BenefitSurr c (t+1)) / (1 + c.DiscRate t)
termination_by c.last_t + 1 - t
decreasing_by omega

/-- Present value of total benefits. -/
def PV_BenefitTotal (c : PVCtx) (t : ℕ) : ℚ :=
  if h : t > c.last_t then 0
  else (-c.BenefitTotal t + PV_BenefitTotal c (t+1)) / (1 + c.DiscRate t)
termination_by c.last_t + 1 - t
decreasing_by omega

/-- Present value of acquisition expenses. -/
def PV_ExpsAcq (c : PVCtx) (t : ℕ) : ℚ :=
  if h : t > c.last_t then 0
  else - c.ExpsAcq t + PV_ExpsAcq c (t+1) / (1 + c.DiscRate t)
termination_by c.last_t + 1 - t
decreasing_by omega

/-- Present value of commission expenses. -/
def PV_ExpsCommTotal (c : PVCtx) (t : ℕ) : ℚ :=
  if h : t > c.last_t then 0
  else - c.ExpsCommTotal t + PV_ExpsCommTotal c (t+1) / (1 + c.DiscRate t)
termination_by c.last_t + 1 - t
decreasing_by omega

/-- Present value of maintenance expenses. -/
def PV_ExpsMaint (c : PVCtx) (t : ℕ) : ℚ :=
  if h : t > c.last_t then 0
  else - c.ExpsMaint t + PV_ExpsMaint c (t+1) / (1 + c.DiscRate t)
termination_by c.last_t + 1 - t
decreasing_by omega

/-- Present value of total expenses. -/
def PV_ExpsTotal (c : PVCtx) (t : ℕ) : ℚ :=
  if h : t > c.last_t then 0
  else - c.ExpsTotal t + PV_ExpsTotal c (t+1) / (1 + c.DiscRate t)
termination_by c.last_t + 1 - t
decreasing_by omega

/-- Present value of premium income. -/
def PV_PremIncome (c : PVCtx) (t : ℕ) : ℚ :=
  if h : t > c.last_t then 0
  else c.PremIncome t + PV_PremIncome c (t+1) / (1 + c.DiscRate t)
termination_by c.last_t + 1 - t
decreasing_by omega

/-- Present value of insurance in-force. -/
def PV_SumInsurIF (c : PVCtx) (t : ℕ) : ℚ :=
  if h : t > c.last_t then 0
  else c.InsurIF_Beg1 t + PV_SumInsurIF c (t+1) / (1 + c.DiscRate t)
termination_by c.last_t + 1 - t
decreasing_by omega

/-- Present value of net cashflow, as the sum of the three component
present-value recursions. -/
def PV_NetCashflow (c : PVCtx) (t : ℕ) : ℚ :=
  PV_PremIncome c t + PV_ExpsTotal c t + PV_BenefitTotal c t

/-- Present value of net cashflow, computed by the step-by-step
recurrence used as a cross-check. -/
def PV_NetCashflowForCheck (c : PVCtx) (t : ℕ) : ℚ :=
  if t > c.last_t then 0
  else (c.PremIncome t
        - c.ExpsTotal t
        - c.BenefitTotal t / (1 + c.DiscRate t)
        + PV_NetCashflow c (t+1) / (1 + c.DiscRate t))

/-- Difference between the aggregated and the step-by-step present
values of the net cashflow. -/
def PV_Check (c : PVCtx) (t : ℕ) : ℚ :=
  PV_NetCashflow c t - PV_NetCashflowForCheck c t

/-- Interest accreted on the present value of net cashflows. -/
def InterestNetCF (c : PVCtx) (t : ℕ) : ℚ :=
  if t > c.last_t then 0
  else (PV_NetCashflow c t - c.PremIncome t + c.ExpsTotal t) * c.DiscRate t

end PV

/-- Association-list lookup, used to model keyed table/cache lookups. -/
def afind {α β : Type} [DecidableEq α] (a : α) : List (α × β) → Option β
  | [] => none
  | (a', b) :: r => if a' = a then some b else afind a r

namespace CashValue

structure ModelPoint where
  age_at_entry : ℤ
  policy_term : ℤ
  policy_count : ℚ
  sum_assured : ℚ
  duration_mth : ℤ
  premium_pp : ℚ
  premium_type : String
  av_pp_init : ℚ
  accum_prem_init_pp : ℚ
  load_prem_rate : ℚ
  has_surr_charge : Bool
  surr_charge_id : String
  is_wl : Bool

structure Ctx where
  mortRows : List (ℤ × List ℚ)
  root12 : ℚ → ℚ
  expF : ℚ → ℚ
  sqrt112 : ℚ
  std_norm_rand : ℕ → ℕ → ℚ
  scen_id : ℕ
  surrStacked : List ((String × ℤ) × ℚ)
  surrMaxIdx : ℤ

def age_at_entry (mp : ModelPoint) : ℤ := mp.age_at_entry

def duration_mth (mp : ModelPoint) : ℕ → ℤ
  | 0 => mp.duration_mth
  | t + 1 => duration_mth mp t + 1

def duration (mp : ModelPoint) (t : ℕ) : ℤ := Int.fdiv (duration_mth mp t) 12

def age (mp : ModelPoint) (t : ℕ) : ℤ := age_at_entry mp + duration mp t

def mort_table_last_age : List (ℤ × List ℚ) → ℤ
  | [] => 0
  | (a, row) :: rest =>
    if row.all (fun r => r == 1) then a
    else
      match rest with
      | [] => a
      | _ :: _ => mort_table_last_age rest

def is_wl (mp : ModelPoint) : Bool := mp.is_wl

def policy_term (ctx : Ctx) (mp : ModelPoint) : ℤ :=
  (if is_wl mp then 1 else 0) * (mort_table_last_age ctx.mortRows - age_at_entry mp)
    + (if is_wl mp = false then 1 else 0) * mp.policy_term

def mort_table_reindexed (rows : List (ℤ × List ℚ)) (a d : ℤ) : Option ℚ :=
  match afind a rows with
  | none => none
  | some row => if d < 0 then none else row[d.toNat]?

def mort_rate (ctx : Ctx) (mp : ModelPoint) (t : ℕ) : ℚ :=
  (mort_table_reindexed ctx.mortRows (age mp t) (min (duration mp t) 5)).getD 0

def mort_rate_mth (ctx : Ctx) (mp : ModelPoint) (t : ℕ) : ℚ :=
  1 - ctx.root12 (1 - mort_rate ctx mp t)

def lapse_rate (mp : ModelPoint) (t : ℕ) : ℚ :=
  max (1/10 - 2/100 * ((duration mp t : ℤ) : ℚ)) (2/100)

def pols_if_init (mp : ModelPoint) : ℚ :=
  if duration_mth mp 0 > 0 then mp.policy_count else 0

def pols_new_biz (mp : ModelPoint) (t : ℕ) : ℚ :=
  if duration_mth mp t = 0 then mp.policy_count else 0

def premium_type (mp : ModelPoint) : String := mp.premium_type

def premium_pp (ctx : Ctx) (mp : ModelPoint) (t : ℕ) : ℚ :=
  (if premium_type mp = "SINGLE" then 1 else 0)
      * (if duration_mth mp t = 0 then 1 else 0) * mp.premium_pp
    + (if premium_type mp = "LEVEL" then 1 else 0)
      * (if duration_mth mp t < 12 * policy_term ctx mp then 1 else 0) * mp.premium_pp

def rank_pols (timing : String) : ℕ :=
  match timing with
  | "BEF_NB" => 2
  | "BEF_DECR" => 3
  | _ => 0

mutual

def pols_if_at (ctx : Ctx) (mp : ModelPoint) (t : ℕ) (timing : String) :
    Except String ℚ :=
  match timing with
  | "BEF_MAT" =>
    match t with
    | 0 => .ok (pols_if_init mp)
    | t' + 1 =>
      match pols_if_at ctx mp t' ("BEF_DECR") with
      | .error e => .error e
      | .ok a =>
        match pols_lapse ctx mp t' with
        | .error e => .error e
        | .ok l =>
          match pols_death ctx mp t' with
          | .error e => .error e
          | .ok d => .ok (a - l - d)
  | "BEF_NB" =>
    match pols_if_at ctx mp t ("BEF_MAT") with
    | .error e => .error e
    | .ok a =>
      match pols_maturity ctx mp t with
      | .error e => .error e
      | .ok m => .ok (a - m)
  | "BEF_DECR" =>
    match pols_if_at ctx mp t ("BEF_NB") with
    | .error e => .error e
    | .ok a => .ok (a + pols_new_biz mp t)
  | _ => .error ("invalid timing")
termination_by 8 * t + rank_pols timing
decreasing_by all_goals (try simp [rank_pols]); all_goals omega

def pols_maturity (ctx : Ctx) (mp : ModelPoint) (t : ℕ) : Except String ℚ :=
  match pols_if_at ctx mp t ("BEF_MAT") with
  | .error e => .error e
  | .ok a =>
    .ok ((if duration_mth mp t = policy_term ctx mp * 12 then 1 else 0) * a)
termination_by 8 * t + 1
decreasing_by all_goals (try simp [rank_pols]); all_goals omega

def pols_death (ctx : Ctx) (mp : ModelPoint) (t : ℕ) : Except String ℚ :=
  match pols_if_at ctx mp t ("BEF_DECR") with
  | .error e => .error e
  | .ok a => .ok (a * mort_rate_mth ctx mp t)
termination_by 8 * t + 4
decreasing_by all_goals (try simp [rank_pols]); all_goals omega

def pols_lapse (ctx : Ctx) (mp : ModelPoint) (t : ℕ) : Except String ℚ :=
  match pols_if_at ctx mp t ("BEF_DECR") with
  | .error e => .error e
  | .ok a =>
    match pols_death ctx mp t with
    | .error e => .error e
    | .ok d => .ok ((a - d) * (1 - ctx.root12 (1 - lapse_rate mp t)))
termination_by 8 * t + 5
decreasing_by all_goals (try simp [rank_pols]); all_goals omega

end

end CashValue

namespace CashValue

def av_pp_init (mp : ModelPoint) : ℚ := mp.av_pp_init

def sum_assured (mp : ModelPoint) : ℚ := mp.sum_assured

def maint_fee_av : ℚ := (1/100) / 12

def coi_av (ctx : Ctx) (mp : ModelPoint) (t : ℕ) : ℚ :=
  11/10 * mort_rate_mth ctx mp t

def inv_return_table (ctx : Ctx) (s : ℕ) (t : ℕ) : ℚ :=
  ctx.expF (2/100 * (1/12) + 3/100 * ctx.sqrt112 * ctx.std_norm_rand s t) - 1

def inv_return_mth (ctx : Ctx) (t : ℕ) : ℚ :=
  inv_return_table ctx ctx.scen_id t

def prem_to_av_pp (ctx : Ctx) (mp : ModelPoint) (t : ℕ) : ℚ :=
  (1 - mp.load_prem_rate) * premium_pp ctx mp t

def rank_av (timing : String) : ℕ :=
  match timing with
  | "BEF_FEE" => 2
  | "BEF_INV" => 5
  | "MID_MTH" => 7
  | _ => 0

mutual

def av_pp_at (ctx : Ctx) (mp : ModelPoint) (t : ℕ) (timing : String) :
    Except String ℚ :=
  match timing with
  | "BEF_PREM" =>
    match t with
    | 0 => .ok (av_pp_init mp)
    | t' + 1 =>
      match av_pp_at ctx mp t' ("BEF_INV") with
      | .error e => .error e
      | .ok a =>
        match inv_income_pp ctx mp t' with
        | .error e => .error e
        | .ok i => .ok (a + i)
  | "BEF_FEE" =>
    match av_pp_at ctx mp t ("BEF_PREM") with
    | .error e => .error e
    | .ok a => .ok (a + prem_to_av_pp ctx mp t)
  | "BEF_INV" =>
    match av_pp_at ctx mp t ("BEF_FEE") with
    | .error e => .error e
    | .ok a =>
      match maint_fee_pp ctx mp t with
      | .error e => .error e
      | .ok m =>
        match coi_pp ctx mp t with
        | .error e => .error e
        | .ok cc => .ok (a - m - cc)
  | "MID_MTH" =>
    match av_pp_at ctx mp t ("BEF_INV") with
    | .error e => .error e
    | .ok a =>
      match inv_income_pp ctx mp t with
      | .error e => .error e
      | .ok i => .ok (a + 1/2 * i)
  | _ => .error ("invalid timing")
termination_by 8 * t + rank_av timing
decreasing_by all_goals (try simp [rank_av]); all_goals omega

def maint_fee_pp (ctx : Ctx) (mp : ModelPoint) (t : ℕ) : Except String ℚ :=
  match av_pp_at ctx mp t ("BEF_FEE") with
  | .error e => .error e
  | .ok a => .ok (maint_fee_av * a)
termination_by 8 * t + 3
decreasing_by all_goals (try simp [rank_av]); all_goals omega

def net_amt_at_risk (ctx : Ctx) (mp : ModelPoint) (t : ℕ) : Except String ℚ :=
  match av_pp_at ctx mp t ("BEF_FEE") with
  | .error e => .error e
  | .ok a => .ok (max (sum_assured mp - a) 0)
termination_by 8 * t + 3
decreasing_by all_goals (try simp [rank_av]); all_goals omega

def coi_pp (ctx : Ctx) (mp : ModelPoint) (t : ℕ) : Except String ℚ :=
  match net_amt_at_risk ctx mp t with
  | .error e => .error e
  | .ok n => .ok (coi_av ctx mp t * n)
termination_by 8 * t + 4
decreasing_by all_goals (try simp [rank_av]); all_goals omega

def inv_income_pp (ctx : Ctx) (mp : ModelPoint) (t : ℕ) : Except String ℚ :=
  match av_pp_at ctx mp t ("BEF_INV") with
  | .error e => .error e
  | .ok a => .ok (inv_return_mth ctx t * a)
termination_by 8 * t + 6
decreasing_by all_goals (try simp [rank_av]); all_goals omega

end

def av_at (ctx : Ctx) (mp : ModelPoint) (t : ℕ) (timing : String) :
    Except String ℚ :=
  match timing with
  | "BEF_MAT" =>
    match av_pp_at ctx mp t ("BEF_PREM") with
    | .error e => .error e
    | .ok a =>
      match pols_if_at ctx mp t ("BEF_MAT") with
      | .error e => .error e
      | .ok p => .ok (a * p)
  | "BEF_NB" =>
    match av_pp_at ctx mp t ("BEF_PREM") with
    | .error e => .error e
    | .ok a =>
      match pols_if_at ctx mp t ("BEF_NB") with
      | .error e => .error e
      | .ok p => .ok (a * p)
  | "BEF_FEE" =>
    match av_pp_at ctx mp t ("BEF_FEE") with
    | .error e => .error e
    | .ok a =>
      match pols_if_at ctx mp t ("BEF_DECR") with
      | .error e => .error e
      | .ok p => .ok (a * p)
  | _ => .error ("invalid timing")

def claim_pp (ctx : Ctx) (mp : ModelPoint) (t : ℕ) (kind : String) :
    Except String ℚ :=
  match kind with
  | "DEATH" =>
    match av_pp_at ctx mp t ("MID_MTH") with
    | .error e => .error e
    | .ok a => .ok (max (sum_assured mp) a)
  | "LAPSE" => av_pp_at ctx mp t ("MID_MTH")
  | "MATURITY" => av_pp_at ctx mp t ("BEF_PREM")
  | _ => .error ("invalid kind")

def claims_from_av (ctx : Ctx) (mp : ModelPoint) (t : ℕ) (kind : String) :
    Except String ℚ :=
  match kind with
  | "DEATH" =>
    match av_pp_at ctx mp t ("MID_MTH") with
    | .error e => .error e
    | .ok a =>
      match pols_death ctx mp t with
      | .error e => .error e
      | .ok p => .ok (a * p)
  | "LAPSE" =>
    match av_pp_at ctx mp t ("MID_MTH") with
    | .error e => .error e
    | .ok a =>
      match pols_lapse ctx mp t with
      | .error e => .error e
      | .ok p => .ok (a * p)
  | "MATURITY" =>
    match av_pp_at ctx mp t ("BEF_PREM") with
    | .error e => .error e
    | .ok a =>
      match pols_maturity ctx mp t with
      | .error e => .error e
      | .ok p => .ok (a * p)
  | _ => .error ("invalid kind")

def surr_charge_id (mp : ModelPoint) : String := mp.surr_charge_id

def has_surr_charge (mp : ModelPoint) : Bool := mp.has_surr_charge

def surr_charge_av (ctx : Ctx) (mp : ModelPoint) (t : ℕ) : ℚ :=
  (afind ((if has_surr_charge mp then surr_charge_id mp else ("")),
      min (duration mp t) ctx.surrMaxIdx) ctx.surrStacked).getD 0

def surr_charge (ctx : Ctx) (mp : ModelPoint) (t : ℕ) : Except String ℚ :=
  match av_pp_at ctx mp t ("MID_MTH") with
  | .error e => .error e
  | .ok a =>
    match pols_lapse ctx mp t with
    | .error e => .error e
    | .ok l => .ok (surr_charge_av ctx mp t * a * l)

def claims (ctx : Ctx) (mp : ModelPoint) (t : ℕ) (kind : Option String) :
    Except String ℚ :=
  match kind with
  | some ("DEATH") =>
    match claim_pp ctx mp t ("DEATH") with
    | .error e => .error e
    | .ok c =>
      match pols_death ctx mp t with
      | .error e => .error e
      | .ok p => .ok (c * p)
  | some ("LAPSE") =>
    match claims_from_av ctx mp t ("LAPSE") with
    | .error e => .error e
    | .ok c =>
      match surr_charge ctx mp t with
      | .error e => .error e
      | .ok s => .ok (c - s)
  | some ("MATURITY") => claims_from_av ctx mp t ("MATURITY")
  | none =>
    match claims ctx mp t (some ("DEATH")) with
    | .error e => .error e
    | .ok d =>
      match claims ctx mp t (some ("LAPSE")) with
      | .error e => .error e
      | .ok l =>
        match claims ctx mp t (some ("MATURITY")) with
        | .error e => .error e
        | .ok m => .ok (d + l + m)
  | some _ => .error ("invalid kind")
termination_by (match kind with | none => 1 | _ => 0)
decreasing_by all_goals simp

def accum_prem_init_pp (mp : ModelPoint) : ℚ := mp.accum_prem_init_pp

def accum_prem_pp (ctx : Ctx) (mp : ModelPoint) : ℕ → ℚ
  | 0 => accum_prem_init_pp mp + premium_pp ctx mp 0
  | t + 1 => accum_prem_pp ctx mp t + premium_pp ctx mp (t + 1)

end CashValue


namespace Engine

/-- Modelled from the spec: a scalar argument value, an integer or a
string (section 3, ArgumentTuple: integers, strings/enums). -/
inductive Val where
  | int (n : ℤ)
  | str (s : String)
deriving DecidableEq

/-- Modelled from the spec: a cache key, the cell name together with the
argument tuple (section 3, Cache Entry). -/
abbrev Key := String × List Val

/-- Modelled from the spec: an argument expression of a dependency
request, built from the enclosing cell's own arguments. -/
inductive AExpr where
  | lit (n : ℤ)
  | strlit (s : String)
  | var (i : ℕ)
  | varSub (i : ℕ) (n : ℤ)
deriving DecidableEq

/-- Modelled from the spec: the body of a cell function: arithmetic,
equality tests and dependency requests issued back to the Evaluator
(section 4.2, opaque callables issuing further requests). -/
inductive Expr where
  | lit (n : ℤ)
  | strlit (s : String)
  | var (i : ℕ)
  | add (a b : Expr)
  | sub (a b : Expr)
  | ifEq (a b : Expr) (t e : Expr)
  | call (name : String) (args : List AExpr)
deriving DecidableEq

/-- Modelled from the spec: a registered cell: its arity and its body
(section 4.2, `register(name, function, arity)`). -/
structure CellDef where
  arity : ℕ
  body : Expr
deriving DecidableEq

/-- Modelled from the spec: the Cell Registry (section 4.2). -/
abbrev Registry := List (String × CellDef)

/-- Modelled from the spec: the error taxonomy of section 7 that the
Evaluator itself can raise, plus resource exhaustion, which stands for
a computation that never resolves (infinite regress). -/
inductive Err where
  | circular (chain : List Key)
  | unknownCell (name : String)
  | arityErr (name : String)
  | typeErr
  | fuelOut
deriving DecidableEq

/-- Modelled from the spec: the mutable evaluation state: the Value
Table (cache) and the multiset of cell-function invocations, recorded
for the memoization call-count property (section 8). -/
structure St where
  cache : List (Key × Val)
  counts : List Key
deriving DecidableEq

/-- Number of times a key was invoked. -/
def occ (k : Key) : List Key → ℕ
  | [] => 0
  | k' :: r => (if k' = k then 1 else 0) + occ k r

/-- Evaluate an argument expression against the cell's own argument
tuple. -/
def evalA (env : List Val) : AExpr → Except Err Val
  | .lit n => .ok (.int n)
  | .strlit s => .ok (.str s)
  | .var i =>
    match env[i]? with
    | some v => .ok v
    | none => .error .typeErr
  | .varSub i n =>
    match env[i]? with
    | some (.int m) => .ok (.int (m - n))
    | _ => .error .typeErr

/-- Evaluate a tuple of argument expressions. -/
def evalAs (env : List Val) : List AExpr → Except Err (List Val)
  | [] => .ok []
  | a :: r =>
    match evalA env a with
    | .error e => .error e
    | .ok v =>
      match evalAs env r with
      | .error e => .error e
      | .ok vs => .ok (v :: vs)

/-- A pending unit of evaluation work: either a cell body being
evaluated in the scope of an argument tuple, or a cell request. -/
inductive Task where
  | expr (env : List Val) (e : Expr)
  | call (key : Key)
deriving DecidableEq

/-- Modelled from the spec, section 4.3: the Evaluator.  On a cell
request (`Task.call`): if the key is cached, return the cached value;
if it is in-progress on the active chain, fail with the
circular-evaluation error naming the chain; otherwise resolve the cell,
check the arity, mark the key in-progress, record the invocation,
evaluate the cell body, cache the result and return it.  On a body
(`Task.expr`), evaluate arithmetic left to right, threading the state,
and delegate dependency requests back to the Evaluator.  `fuel`
decreases at every recursive step, so a computation with no grounded
base case exhausts it and surfaces as `Err.fuelOut` (infinite
regress). -/
def run (reg : Registry) : (fuel : ℕ) → List Key → St → Task →
    Except Err (Val × St)
  | _, _, st, .expr _ (.lit n) => .ok (.int n, st)
  | _, _, st, .expr _ (.strlit s) => .ok (.str s, st)
  | _, _, st, .expr env (.var i) =>
    match env[i]? with
    | some v => .ok (v, st)
    | none => .error .typeErr
  | 0, _, _, .expr _ (.add _ _) => .error .fuelOut
  | fuel + 1, stack, st, .expr env (.add a b) =>
    match run reg fuel stack st (.expr env a) with
    | .error e => .error e
    | .ok (va, st1) =>
      match run reg fuel stack st1 (.expr env b) with
      | .error e => .error e
      | .ok (vb, st2) =>
        match va, vb with
        | .int m, .int n => .ok (.int (m + n), st2)
        | _, _ => .error .typeErr
  | 0, _, _, .expr _ (.sub _ _) => .error .fuelOut
  | fuel + 1, stack, st, .expr env (.sub a b) =>
    match run reg fuel stack st (.expr env a) with
    | .error e => .error e
    | .ok (va, st1) =>
      match run reg fuel stack st1 (.expr env b) with
      | .error e => .error e
      | .ok (vb, st2) =>
        match va, vb with
        | .int m, .int n => .ok (.int (m - n), st2)
        | _, _ => .error .typeErr
  | 0, _, _, .expr _ (.ifEq _ _ _ _) => .error .fuelOut
  | fuel + 1, stack, st, .expr env (.ifEq a b t e) =>
    match run reg fuel stack st (.expr env a) with
    | .error er => .error er
    | .ok (va, st1) =>
      match run reg fuel stack st1 (.expr env b) with
      | .error er => .error er
      | .ok (vb, st2) =>
        if va = vb then run reg fuel stack st2 (.expr env t)
        else run reg fuel stack st2 (.expr env e)
  | 0, _, _, .expr _ (.call _ _) => .error .fuelOut
  | fuel + 1, stack, st, .expr env (.call name args) =>
    match evalAs env args with
    | .error e => .error e
    | .ok vs => run reg fuel stack st (.call (name, vs))
  | fuel, stack, st, .call key =>
    match afind key st.cache with
    | some v => .ok (v, st)
    | none =>
      if key ∈ stack then .error (.circular (key :: stack))
      else
        match afind key.1 reg with
        | none => .error (.unknownCell key.1)
        | some cd =>
          if cd.arity = key.2.length then
            match fuel with
            | 0 => .error .fuelOut
            | f + 1 =>
              match run reg f (key :: stack)
                  ⟨st.cache, key :: st.counts⟩ (.expr key.2 cd.body) with
              | .error e => .error e
              | .ok (v, st2) => .ok (v, ⟨(key, v) :: st2.cache, st2.counts⟩)
          else .error (.arityErr key.1)

/-- Evaluation of a cell body (a view of `run`). -/
def evalExpr (reg : Registry) (fuel : ℕ) (env : List Val) (stack : List Key)
    (st : St) (e : Expr) : Except Err (Val × St) :=
  run reg fuel stack st (.expr env e)

/-- Evaluation of a cell request (a view of `run`). -/
def evalCall (reg : Registry) (fuel : ℕ) (stack : List Key) (st : St)
    (key : Key) : Except Err (Val × St) :=
  run reg fuel stack st (.call key)

/-- Modelled from the spec: the top-level entry point, starting from an
empty cache and an empty in-progress chain. -/
def evaluate (reg : Registry) (fuel : ℕ) (key : Key) : Except Err (Val × St) :=
  run reg fuel [] ⟨[], []⟩ (.call key)

end Engine

/-- Decidable equality for evaluation results. -/
instance {ε α : Type} [DecidableEq ε] [DecidableEq α] :
    DecidableEq (Except ε α) := fun a b =>
  match a, b with
  | .error e, .error f =>
    if h : e = f then .isTrue (by rw [h])
    else .isFalse (fun hc => h (by cases hc; rfl))
  | .ok x, .ok y =>
    if h : x = y then .isTrue (by rw [h])
    else .isFalse (fun hc => h (by cases hc; rfl))
  | .error _, .ok _ => .isFalse (fun hc => Except.noConfusion hc)
  | .ok _, .error _ => .isFalse (fun hc => Except.noConfusion hc)

namespace Engine

/-- The memoization scenario: `balance(t) = balance(t-1) + deposit(t)`,
`balance(0) = initial()`, `deposit(t) = 10`, `initial() = 100`. -/
def balanceProg : Registry :=
  [("balance", ⟨1, .ifEq (.var 0) (.lit 0) (.call ("initial") [])
      (.add (.call ("balance") [.varSub 0 1]) (.call ("deposit") [.var 0]))⟩),
   ("deposit", ⟨1, .lit 10⟩),
   ("initial", ⟨0, .lit 100⟩)]

/-- The base-case-free scenario exactly as the spec writes it:
`count_if(t, "A") = count_if(t-1, "B")` and
`count_if(t, "B") = count_if(t, "A") + 1`. -/
def countProg : Registry :=
  [("count_if", ⟨2, .ifEq (.var 1) (.strlit ("A"))
      (.call ("count_if") [.varSub 0 1, .strlit ("B")])
      (.ifEq (.var 1) (.strlit ("B"))
        (.add (.call ("count_if") [.var 0, .strlit ("A")]) (.lit 1))
        (.lit 0))⟩)]

/-- A genuinely cyclic variant: `count_if(t, "A") = count_if(t, "B")`
and `count_if(t, "B") = count_if(t, "A") + 1`, so the key
`count_if(0, "A")` is revisited while still in progress. -/
def countProgCycle : Registry :=
  [("count_if", ⟨2, .ifEq (.var 1) (.strlit ("A"))
      (.call ("count_if") [.var 0, .strlit ("B")])
      (.ifEq (.var 1) (.strlit ("B"))
        (.add (.call ("count_if") [.var 0, .strlit ("A")]) (.lit 1))
        (.lit 0))⟩)]

/-- Same-cell recursion to a different argument tuple, grounded at 0:
`f(t) = if t == 0 then 0 else f(t-1)`. -/
def fProg : Registry :=
  [("f", ⟨1, .ifEq (.var 0) (.lit 0) (.lit 0)
      (.call ("f") [.varSub 0 1])⟩)]

/-- The value computed by a top-level evaluation, if it succeeds. -/
def runVal (reg : Registry) (fuel : ℕ) (key : Key) : Option Val :=
  match evaluate reg fuel key with
  | .ok (v, _) => some v
  | .error _ => none

/-- The final state of a successful top-level evaluation. -/
def runSt (reg : Registry) (fuel : ℕ) (key : Key) : St :=
  match evaluate reg fuel key with
  | .ok (_, s) => s
  | .error _ => ⟨[], []⟩

end Engine

namespace PV

/-- A small concrete PV context used to witness the theorems: horizon
2, all cashflow series constantly 1, discount rate constantly 0. -/
def PVex : PVCtx :=
  ⟨2, fun _ => 1, fun _ => 1, fun _ => 1, fun _ => 1, fun _ => 1,
   fun _ => 1, fun _ => 1, fun _ => 1, fun _ => 1, fun _ => 1, fun _ => 0⟩

end PV

namespace CashValue

/-- A trivial concrete reference context used to witness theorems. -/
def ctx0 : Ctx :=
  ⟨[], fun _ => 1, fun _ => 1, 0, fun _ _ => 0, 1, [], 0⟩

/-- A trivial concrete model point used to witness theorems. -/
def mp0 : ModelPoint :=
  ⟨0, 0, 1, 0, 0, 0, "", 0, 0, 0, false, "", false⟩

/-- Reference context with the single mortality-table entry
`rate[(30, 2)] = 0.01`. -/
def ctx5 : Ctx :=
  ⟨[(30, [0, 0, 1/100])], fun _ => 1, fun _ => 1, 0, fun _ _ => 0, 1, [], 0⟩

/-- Model point whose lookup pair at time 0 is `(30, 2)`. -/
def mp5 : ModelPoint :=
  ⟨28, 0, 1, 0, 24, 0, "", 0, 0, 0, false, "", false⟩

/-- Model point whose lookup pair at time 0 is `(101, 2)`, absent from
the table of `ctx5`. -/
def mp5b : ModelPoint :=
  ⟨99, 0, 1, 0, 24, 0, "", 0, 0, 0, false, "", false⟩

/-- Future-new-business model point: in-force in month -3, 7 policies. -/
def mp9a : ModelPoint :=
  ⟨0, 0, 7, 0, -3, 0, "", 0, 0, 0, false, "", false⟩

/-- In-force model point: duration 5 months at time 0, 4 policies. -/
def mp9b : ModelPoint :=
  ⟨0, 0, 4, 0, 5, 0, "", 0, 0, 0, false, "", false⟩

end CashValue

namespace Engine

/-- Entries present in the Value Table are preserved, with their
values, from state `st` to state `st'`. -/
def Mono (st st' : St) : Prop :=
  ∀ k v, afind k st.cache = some v → afind k st'.cache = some v

/-- The call-count invariant: every key has been invoked at most once,
and an invoked key is either still in-progress or already cached. -/
def Inv (stack : List Key) (st : St) : Prop :=
  (∀ k, occ k st.counts ≤ 1)
    ∧ (∀ k, 1 ≤ occ k st.counts → k ∈ stack ∨ (afind k st.cache).isSome)

/-- What one evaluation step preserves. -/
def Pres (stack : List Key) (st st' : St) : Prop :=
  Mono st st' ∧ (Inv stack st → Inv stack st')


end Engine

/-!
Theorems.  First general helper lemmas about the embedded definitions,
then one theorem per specification claim (named `spec_cN...`), each
with its witness where the statement carries hypotheses.
-/

theorem afind_nil {α β : Type} [DecidableEq α] (a : α) :
    afind a ([] : List (α × β)) = none := rfl

theorem afind_cons {α β : Type} [DecidableEq α] (a x : α) (b : β)
    (l : List (α × β)) :
    afind a ((x, b) :: l) = if x = a then some b else afind a l := rfl

namespace Engine

theorem occ_cons (k k' : Key) (l : List Key) :
    occ k (k' :: l) = (if k' = k then 1 else 0) + occ k l := rfl

/-- A cached key is returned from the cache, with no state change. -/
theorem run_cache_hit (reg : Registry) (fuel : ℕ) (stack : List Key)
    (st : St) (key : Key) (v : Val) (h : afind key st.cache = some v) :
    run reg fuel stack st (.call key) = .ok (v, st) := by
  rw [run.eq_def]
  simp [h]

/-- An uncached key that is already in-progress on the active chain
fails with the circular-evaluation error naming the chain. -/
theorem run_circular (reg : Registry) (fuel : ℕ) (stack : List Key)
    (st : St) (key : Key) (h1 : afind key st.cache = none)
    (h2 : key ∈ stack) :
    run reg fuel stack st (.call key) = .error (.circular (key :: stack)) := by
  rw [run.eq_def]
  simp [h1, h2]


/-- A successfully evaluated key is cached in the resulting state. -/
theorem run_call_caches (reg : Registry) (fuel : ℕ) (stack : List Key)
    (st : St) (key : Key) (v : Val) (st' : St)
    (h : run reg fuel stack st (.call key) = .ok (v, st')) :
    afind key st'.cache = some v := by
  rw [run.eq_def] at h
  cases hc : afind key st.cache with
  | some v0 =>
    simp [hc] at h
    obtain ⟨hv, hs⟩ := h
    subst hv
    subst hs
    exact hc
  | none =>
    simp [hc] at h
    split at h
    · simp at h
    · split at h
      · simp at h
      · split at h
        · split at h
          · simp at h
          · split at h
            · simp at h
            · simp at h
              obtain ⟨hv, hs⟩ := h
              subst hv
              subst hs
              simp [afind_cons]
        · simp at h

end Engine

namespace Engine

theorem Pres.rfl (stack : List Key) (st : St) : Pres stack st st :=
  ⟨fun _ _ h => h, id⟩

theorem Pres.comp (stack : List Key) (a b c : St) (h1 : Pres stack a b)
    (h2 : Pres stack b c) : Pres stack a c :=
  ⟨fun k v h => h2.1 k v (h1.1 k v h), fun h => h2.2 (h1.2 h)⟩

theorem pres_call_glue (key : Key) (stack : List Key) (st st2 : St) (v : Val)
    (hc : afind key st.cache = none) (hns : key ∉ stack)
    (hp : Pres (key :: stack) ⟨st.cache, key :: st.counts⟩ st2) :
    Pres stack st ⟨(key, v) :: st2.cache, st2.counts⟩ := by
  constructor
  · intro k w hw
    have hk : ¬ key = k := by
      intro he
      rw [he, hw] at hc
      exact Option.noConfusion hc
    have h2 := hp.1 k w hw
    simp only [afind_cons, if_neg hk]
    exact h2
  · intro hInv
    have hocc0 : occ key st.counts = 0 := by
      by_contra h0
      rcases hInv.2 key (by omega) with hmem | hsome
      · exact hns hmem
      · rw [hc] at hsome
        exact Bool.noConfusion hsome
    have hInv1 : Inv (key :: stack) ⟨st.cache, key :: st.counts⟩ := by
      constructor
      · intro k
        simp only [occ_cons]
        by_cases hk : key = k
        · subst hk
          simp [hocc0]
        · simpa [hk] using hInv.1 k
      · intro k hk1
        simp only [occ_cons] at hk1
        by_cases hk : key = k
        · subst hk
          exact Or.inl (List.mem_cons_self _ _)
        · simp only [if_neg hk] at hk1
          rcases hInv.2 k (by omega) with hmem | hsome
          · exact Or.inl (List.mem_cons_of_mem _ hmem)
          · exact Or.inr hsome
    have hInv2 := hp.2 hInv1
    constructor
    · intro k
      exact hInv2.1 k
    · intro k hk1
      rcases hInv2.2 k hk1 with hmem | hsome
      · rcases List.mem_cons.mp hmem with hk | hmem'
        · subst hk
          simp [afind_cons]
        · exact Or.inl hmem'
      · by_cases hk : key = k
        · subst hk
          simp [afind_cons]
        · simp only [afind_cons, if_neg hk]
          exact Or.inr hsome

theorem run_expr_call_eq (reg : Registry) (f : ℕ) (env : List Val)
    (stack : List Key) (st : St) (name : String) (args : List AExpr) :
    run reg (f + 1) stack st (.expr env (.call name args)) =
      match evalAs env args with
      | .error e => .error e
      | .ok vs => run reg f stack st (.call (name, vs)) := rfl

theorem run_pres (reg : Registry) : ∀ (fuel : ℕ) (stack : List Key) (st : St)
    (task : Task) (v : Val) (st' : St),
    run reg fuel stack st task = .ok (v, st') → Pres stack st st' := by
  intro fuel
  induction fuel with
  | zero =>
    intro stack st task v st' h
    match task with
    | .expr env (.lit n) =>
      simp only [run] at h
      cases h
      exact Pres.rfl stack st
    | .expr env (.strlit s) =>
      simp only [run] at h
      cases h
      exact Pres.rfl stack st
    | .expr env (.var i) =>
      simp only [run] at h
      split at h
      · cases h
        exact Pres.rfl stack st
      · exact Except.noConfusion h
    | .expr env (.add a b) =>
      simp only [run] at h
      exact Except.noConfusion h
    | .expr env (.sub a b) =>
      simp only [run] at h
      exact Except.noConfusion h
    | .expr env (.ifEq a b t e) =>
      simp only [run] at h
      exact Except.noConfusion h
    | .expr env (.call name args) =>
      simp only [run] at h
      exact Except.noConfusion h
    | .call key =>
      simp only [run] at h
      split at h
      · cases h
        exact Pres.rfl stack st
      · split at h
        · exact Except.noConfusion h
        · split at h
          · exact Except.noConfusion h
          · split at h
            · exact Except.noConfusion h
            · exact Except.noConfusion h
  | succ f ih =>
    intro stack st task v st' h
    match task with
    | .expr env (.lit n) =>
      simp only [run] at h
      cases h
      exact Pres.rfl stack st
    | .expr env (.strlit s) =>
      simp only [run] at h
      cases h
      exact Pres.rfl stack st
    | .expr env (.var i) =>
      simp only [run] at h
      split at h
      · cases h
        exact Pres.rfl stack st
      · exact Except.noConfusion h
    | .expr env (.add a b) =>
      simp only [run] at h
      split at h
      · exact Except.noConfusion h
      · rename_i va st1 h1
        split at h
        · exact Except.noConfusion h
        · rename_i vb st2 h2
          rcases va with m | s <;> rcases vb with n | s2
          · simp only [Except.ok.injEq, Prod.mk.injEq] at h
            obtain ⟨-, hs⟩ := h
            rw [hs] at h2
            exact Pres.comp stack st st1 st' (ih stack st _ _ st1 h1)
              (ih stack st1 _ _ st' h2)
          · exact Except.noConfusion h
          · exact Except.noConfusion h
          · exact Except.noConfusion h
    | .expr env (.sub a b) =>
      simp only [run] at h
      split at h
      · exact Except.noConfusion h
      · rename_i va st1 h1
        split at h
        · exact Except.noConfusion h
        · rename_i vb st2 h2
          rcases va with m | s <;> rcases vb with n | s2
          · simp only [Except.ok.injEq, Prod.mk.injEq] at h
            obtain ⟨-, hs⟩ := h
            rw [hs] at h2
            exact Pres.comp stack st st1 st' (ih stack st _ _ st1 h1)
              (ih stack st1 _ _ st' h2)
          · exact Except.noConfusion h
          · exact Except.noConfusion h
          · exact Except.noConfusion h
    | .expr env (.ifEq a b t e) =>
      simp only [run] at h
      split at h
      · exact Except.noConfusion h
      · rename_i va st1 h1
        split at h
        · exact Except.noConfusion h
        · rename_i vb st2 h2
          split at h
          · exact Pres.comp stack st st1 st' (ih stack st _ _ st1 h1)
              (Pres.comp stack st1 st2 st' (ih stack st1 _ _ st2 h2)
                (ih stack st2 _ _ st' h))
          · exact Pres.comp stack st st1 st' (ih stack st _ _ st1 h1)
              (Pres.comp stack st1 st2 st' (ih stack st1 _ _ st2 h2)
                (ih stack st2 _ _ st' h))
    | .expr env (.call name args) =>
      rw [run_expr_call_eq] at h
      split at h
      · exact Except.noConfusion h
      · exact ih stack st _ _ st' h
    | .call key =>
      simp only [run] at h
      split at h
      · cases h
        exact Pres.rfl stack st
      · rename_i hc
        split at h
        · exact Except.noConfusion h
        · rename_i hns
          split at h
          · exact Except.noConfusion h
          · rename_i cd hcd
            split at h
            · split at h
              · exact Except.noConfusion h
              · rename_i v2 st2 h2
                simp only [Except.ok.injEq, Prod.mk.injEq] at h
                obtain ⟨hv, hs⟩ := h
                subst hv
                rw [← hs]
                exact pres_call_glue key stack st st2 v2 hc hns
                  (ih (key :: stack) ⟨st.cache, key :: st.counts⟩ _ _ st2 h2)
            · exact Except.noConfusion h

end Engine

namespace Engine

theorem evaluate_counts (reg : Registry) (fuel : ℕ) (key : Key) (v : Val)
    (st' : St) (h : evaluate reg fuel key = .ok (v, st')) :
    ∀ k, occ k st'.counts ≤ 1 := by
  have hInv : Inv [] ⟨[], []⟩ := by
    constructor
    · intro k
      simp [occ]
    · intro k hk
      simp [occ] at hk
  exact fun k => ((run_pres reg fuel [] ⟨[], []⟩ (.call key) v st' h).2 hInv).1 k

theorem evaluate_again (reg : Registry) (fuel fuel2 : ℕ) (key : Key) (v : Val)
    (st' : St) (h : evaluate reg fuel key = .ok (v, st')) :
    evalCall reg fuel2 [] st' key = .ok (v, st') :=
  run_cache_hit reg fuel2 [] st' key v
    (run_call_caches reg fuel [] ⟨[], []⟩ key v st' h)



end Engine

namespace CashValue

theorem pols_maturity_eq (ctx : Ctx) (mp : ModelPoint) (t : ℕ) (a : ℚ)
    (h : pols_if_at ctx mp t ("BEF_MAT") = .ok a) :
    pols_maturity ctx mp t
      = .ok ((if duration_mth mp t = policy_term ctx mp * 12 then 1 else 0) * a) := by
  rw [pols_maturity, h]

theorem pols_nb_eq (ctx : Ctx) (mp : ModelPoint) (t : ℕ) (a m : ℚ)
    (h : pols_if_at ctx mp t ("BEF_MAT") = .ok a)
    (hm : pols_maturity ctx mp t = .ok m) :
    pols_if_at ctx mp t ("BEF_NB") = .ok (a - m) := by
  rw [pols_if_at, h, hm]

theorem pols_decr_eq (ctx : Ctx) (mp : ModelPoint) (t : ℕ) (c : ℚ)
    (h : pols_if_at ctx mp t ("BEF_NB") = .ok c) :
    pols_if_at ctx mp t ("BEF_DECR") = .ok (c + pols_new_biz mp t) := by
  rw [pols_if_at, h]

theorem pols_death_eq (ctx : Ctx) (mp : ModelPoint) (t : ℕ) (d : ℚ)
    (h : pols_if_at ctx mp t ("BEF_DECR") = .ok d) :
    pols_death ctx mp t = .ok (d * mort_rate_mth ctx mp t) := by
  rw [pols_death, h]

theorem pols_lapse_eq (ctx : Ctx) (mp : ModelPoint) (t : ℕ) (d e : ℚ)
    (h : pols_if_at ctx mp t ("BEF_DECR") = .ok d)
    (he : pols_death ctx mp t = .ok e) :
    pols_lapse ctx mp t
      = .ok ((d - e) * (1 - ctx.root12 (1 - lapse_rate mp t))) := by
  rw [pols_lapse, h, he]

theorem pols_mat_zero (ctx : Ctx) (mp : ModelPoint) :
    pols_if_at ctx mp 0 ("BEF_MAT") = .ok (pols_if_init mp) := by
  simp [pols_if_at]

theorem pols_mat_succ (ctx : Ctx) (mp : ModelPoint) (t : ℕ) (d e f : ℚ)
    (hd : pols_if_at ctx mp t ("BEF_DECR") = .ok d)
    (hf : pols_lapse ctx mp t = .ok f)
    (he : pols_death ctx mp t = .ok e) :
    pols_if_at ctx mp (t + 1) ("BEF_MAT") = .ok (d - f - e) := by
  rw [pols_if_at, hd, hf, he]

theorem pols_ok (ctx : Ctx) (mp : ModelPoint) : ∀ t : ℕ,
    (∃ a, pols_if_at ctx mp t ("BEF_MAT") = .ok a)
    ∧ (∃ b, pols_maturity ctx mp t = .ok b)
    ∧ (∃ c, pols_if_at ctx mp t ("BEF_NB") = .ok c)
    ∧ (∃ d, pols_if_at ctx mp t ("BEF_DECR") = .ok d)
    ∧ (∃ e, pols_death ctx mp t = .ok e)
    ∧ (∃ f, pols_lapse ctx mp t = .ok f) := by
  intro t
  induction t with
  | zero =>
    have hmat := pols_mat_zero ctx mp
    have hmatu := pols_maturity_eq ctx mp 0 _ hmat
    have hnb := pols_nb_eq ctx mp 0 _ _ hmat hmatu
    have hdecr := pols_decr_eq ctx mp 0 _ hnb
    have hdeath := pols_death_eq ctx mp 0 _ hdecr
    have hlapse := pols_lapse_eq ctx mp 0 _ _ hdecr hdeath
    exact ⟨⟨_, hmat⟩, ⟨_, hmatu⟩, ⟨_, hnb⟩, ⟨_, hdecr⟩, ⟨_, hdeath⟩, ⟨_, hlapse⟩⟩
  | succ t ih =>
    obtain ⟨-, -, -, ⟨d, hd⟩, ⟨e, he⟩, ⟨f, hf⟩⟩ := ih
    have hmat := pols_mat_succ ctx mp t _ _ _ hd hf he
    have hmatu := pols_maturity_eq ctx mp (t+1) _ hmat
    have hnb := pols_nb_eq ctx mp (t+1) _ _ hmat hmatu
    have hdecr := pols_decr_eq ctx mp (t+1) _ hnb
    have hdeath := pols_death_eq ctx mp (t+1) _ hdecr
    have hlapse := pols_lapse_eq ctx mp (t+1) _ _ hdecr hdeath
    exact ⟨⟨_, hmat⟩, ⟨_, hmatu⟩, ⟨_, hnb⟩, ⟨_, hdecr⟩, ⟨_, hdeath⟩, ⟨_, hlapse⟩⟩

end CashValue

/-- C6: out-of-range time arguments are handled by each cell's own
base-case guard, not by any bound imposed by the evaluator: for every
`t > last_t()`, each guarded forward-recursive present-value cell
returns 0 directly from its non-recursive base branch. -/
theorem spec_c6_pv_base_case (c : PV.PVCtx) (t : ℕ) (h : t > c.last_t) :
    PV.PV_PremIncome c t = 0 ∧ PV.PV_BenefitTotal c t = 0
      ∧ PV.PV_ExpsTotal c t = 0 ∧ PV.PV_BenefitDeath c t = 0
      ∧ PV.PV_BenefitMat c t = 0 ∧ PV.PV_BenefitSurr c t = 0
      ∧ PV.PV_ExpsAcq c t = 0 ∧ PV.PV_ExpsCommTotal c t = 0
      ∧ PV.PV_ExpsMaint c t = 0 ∧ PV.PV_SumInsurIF c t = 0
      ∧ PV.PV_NetCashflowForCheck c t = 0 := by
  refine ⟨?_, ?_, ?_, ?_, ?_, ?_, ?_, ?_, ?_, ?_, ?_⟩
  · rw [PV.PV_PremIncome, dif_pos h]
  · rw [PV.PV_BenefitTotal, dif_pos h]
  · rw [PV.PV_ExpsTotal, dif_pos h]
  · rw [PV.PV_BenefitDeath, dif_pos h]
  · rw [PV.PV_BenefitMat, dif_pos h]
  · rw [PV.PV_BenefitSurr, dif_pos h]
  · rw [PV.PV_ExpsAcq, dif_pos h]
  · rw [PV.PV_ExpsCommTotal, dif_pos h]
  · rw [PV.PV_ExpsMaint, dif_pos h]
  · rw [PV.PV_SumInsurIF, dif_pos h]
  · rw [PV.PV_NetCashflowForCheck, if_pos h]

/-- Witness for C6 at the concrete context `PVex` (horizon 2) and
`t = 3`. -/
theorem spec_c6_pv_base_case_witness :
    3 > PV.PVex.last_t ∧ PV.PV_PremIncome PV.PVex 3 = 0 :=
  ⟨by decide, (spec_c6_pv_base_case PV.PVex 3 (by decide)).1⟩

/-- C8: the aggregated and the step-by-step present-value recursions
agree: assuming no discount rate equals -1, `PV_NetCashflow t` equals
`PV_NetCashflowForCheck t` for every `t`, hence `PV_Check t = 0`. -/
theorem spec_c8_pv_check (c : PV.PVCtx) (t : ℕ)
    (h : ∀ s, c.DiscRate s ≠ -1) :
    PV.PV_NetCashflow c t = PV.PV_NetCashflowForCheck c t
      ∧ PV.PV_Check c t = 0 := by
  have hmain : PV.PV_NetCashflow c t = PV.PV_NetCashflowForCheck c t := by
    by_cases ht : t > c.last_t
    · rw [PV.PV_NetCashflow, PV.PV_NetCashflowForCheck, if_pos ht,
        PV.PV_PremIncome, dif_pos ht, PV.PV_ExpsTotal, dif_pos ht,
        PV.PV_BenefitTotal, dif_pos ht]
      norm_num
    · rw [PV.PV_NetCashflow, PV.PV_NetCashflowForCheck, if_neg ht]
      rw [PV.PV_PremIncome, dif_neg ht, PV.PV_ExpsTotal, dif_neg ht,
        PV.PV_BenefitTotal, dif_neg ht]
      rw [PV.PV_NetCashflow]
      ring
  exact ⟨hmain, by rw [PV.PV_Check, hmain]; ring⟩

/-- Witness for C8 at the concrete context `PVex` (discount rate 0). -/
theorem spec_c8_pv_check_witness :
    (∀ s, PV.PVex.DiscRate s ≠ -1) ∧ PV.PV_Check PV.PVex 0 = 0 :=
  ⟨fun s => by norm_num [PV.PVex],
   (spec_c8_pv_check PV.PVex 0 (fun s => by norm_num [PV.PVex])).2⟩

namespace CashValue

theorem duration_mth_linear (mp : ModelPoint) :
    ∀ t : ℕ, duration_mth mp t = mp.duration_mth + t := by
  intro t
  induction t with
  | zero => simp [duration_mth]
  | succ n ih =>
    rw [duration_mth, ih]
    push_cast
    ring

end CashValue

/-- C9: model points representing future new business are not counted
as in-force at time 0: `pols_if_init` keeps `policy_count` only where
`duration_mth(0) > 0` and is 0 where `duration_mth(0) <= 0`; such a
point instead enters through `pols_new_biz(t)` at the `t` where
`duration_mth(t) == 0`. -/
theorem spec_c9_new_business (mp : CashValue.ModelPoint) :
    (0 < CashValue.duration_mth mp 0 →
      CashValue.pols_if_init mp = mp.policy_count)
    ∧ (CashValue.duration_mth mp 0 ≤ 0 → CashValue.pols_if_init mp = 0)
    ∧ (CashValue.duration_mth mp 0 ≤ 0 →
        CashValue.pols_new_biz mp ((- mp.duration_mth).toNat)
          = mp.policy_count) := by
  refine ⟨?_, ?_, ?_⟩
  · intro h
    rw [CashValue.pols_if_init, if_pos h]
  · intro h
    rw [CashValue.pols_if_init, if_neg (by omega)]
  · intro h
    have hlin := CashValue.duration_mth_linear mp 0
    have hz : CashValue.duration_mth mp ((- mp.duration_mth).toNat) = 0 := by
      rw [CashValue.duration_mth_linear]
      omega
    rw [CashValue.pols_new_biz, if_pos hz]

/-- Witness for C9: a future-new-business point (duration -3) and an
in-force point (duration 5). -/
theorem spec_c9_new_business_witness :
    CashValue.duration_mth CashValue.mp9a 0 ≤ 0
    ∧ CashValue.pols_if_init CashValue.mp9a = 0
    ∧ CashValue.pols_new_biz CashValue.mp9a 3 = CashValue.mp9a.policy_count
    ∧ CashValue.pols_if_init CashValue.mp9b = CashValue.mp9b.policy_count :=
  ⟨by decide, (spec_c9_new_business CashValue.mp9a).2.1 (by decide),
   (spec_c9_new_business CashValue.mp9a).2.2 (by decide),
   (spec_c9_new_business CashValue.mp9b).1 (by decide)⟩

/-- C5: the two-dimensional mortality lookup returns the fill value 0
when the pair `(age(t), min(duration(t), 5))` is absent from the
reindexed table, and the stored rate when it is present. -/
theorem spec_c5_fill_on_miss (ctx : CashValue.Ctx)
    (mp : CashValue.ModelPoint) (t : ℕ) :
    (CashValue.mort_table_reindexed ctx.mortRows (CashValue.age mp t)
        (min (CashValue.duration mp t) 5) = none →
      CashValue.mort_rate ctx mp t = 0)
    ∧ (∀ r, CashValue.mort_table_reindexed ctx.mortRows (CashValue.age mp t)
        (min (CashValue.duration mp t) 5) = some r →
      CashValue.mort_rate ctx mp t = r) := by
  constructor
  · intro h
    rw [CashValue.mort_rate, h]
    rfl
  · intro r h
    rw [CashValue.mort_rate, h]
    rfl

/-- Witness for C5, the spec scenario: a table holding only
`rate[(30, 2)] = 0.01`; the present pair yields 0.01, the absent pair
`(101, 2)` yields the fill value 0. -/
theorem spec_c5_fill_on_miss_witness :
    CashValue.mort_table_reindexed CashValue.ctx5.mortRows
        (CashValue.age CashValue.mp5 0)
        (min (CashValue.duration CashValue.mp5 0) 5) = some (1/100)
    ∧ CashValue.mort_rate CashValue.ctx5 CashValue.mp5 0 = 1/100
    ∧ CashValue.mort_table_reindexed CashValue.ctx5.mortRows
        (CashValue.age CashValue.mp5b 0)
        (min (CashValue.duration CashValue.mp5b 0) 5) = none
    ∧ CashValue.mort_rate CashValue.ctx5 CashValue.mp5b 0 = 0 :=
  ⟨by rfl,
   (spec_c5_fill_on_miss CashValue.ctx5 CashValue.mp5 0).2 (1/100) (by rfl),
   by rfl,
   (spec_c5_fill_on_miss CashValue.ctx5 CashValue.mp5b 0).1 (by rfl)⟩

/-- C10: `net_amt_at_risk(t)` is nonnegative (it is floored at 0 by the
maximum with 0), so the cost-of-insurance charge `coi_pp(t)` built on
it is nonnegative whenever the monthly mortality rate is
nonnegative. -/
theorem spec_c10_naar_nonneg (ctx : CashValue.Ctx)
    (mp : CashValue.ModelPoint) (t : ℕ) :
    (∀ v, CashValue.net_amt_at_risk ctx mp t = .ok v → 0 ≤ v)
    ∧ (∀ w, CashValue.coi_pp ctx mp t = .ok w →
        0 ≤ CashValue.mort_rate_mth ctx mp t → 0 ≤ w) := by
  have hnaar : ∀ v, CashValue.net_amt_at_risk ctx mp t = .ok v → 0 ≤ v := by
    intro v hv
    rw [CashValue.net_amt_at_risk] at hv
    split at hv
    · exact Except.noConfusion hv
    · cases hv
      exact le_max_right _ _
  refine ⟨hnaar, ?_⟩
  intro w hw hm
  rw [CashValue.coi_pp] at hw
  split at hw
  · exact Except.noConfusion hw
  · rename_i n hn
    cases hw
    have h0 : 0 ≤ n := hnaar n hn
    have h1 : 0 ≤ CashValue.coi_av ctx mp t := by
      rw [CashValue.coi_av]
      exact mul_nonneg (by norm_num) hm
    exact mul_nonneg h1 h0

/-- Witness for C10 at the trivial context and model point. -/
theorem spec_c10_naar_nonneg_witness :
    CashValue.net_amt_at_risk CashValue.ctx0 CashValue.mp0 0 = .ok 0
    ∧ (0 : ℚ) ≤ 0
    ∧ CashValue.coi_pp CashValue.ctx0 CashValue.mp0 0 = .ok 0
    ∧ 0 ≤ CashValue.mort_rate_mth CashValue.ctx0 CashValue.mp0 0
    ∧ (0 : ℚ) ≤ 0 := by
  have hfee : CashValue.av_pp_at CashValue.ctx0 CashValue.mp0 0 ("BEF_FEE")
      = .ok 0 := by
    norm_num [CashValue.av_pp_at, CashValue.av_pp_init,
      CashValue.prem_to_av_pp, CashValue.premium_pp, CashValue.premium_type,
      CashValue.mp0, CashValue.ctx0, CashValue.duration_mth,
      CashValue.policy_term]
  have hnaar : CashValue.net_amt_at_risk CashValue.ctx0 CashValue.mp0 0
      = .ok 0 := by
    rw [CashValue.net_amt_at_risk, hfee]
    norm_num [CashValue.sum_assured, CashValue.mp0]
  have hcoi : CashValue.coi_pp CashValue.ctx0 CashValue.mp0 0 = .ok 0 := by
    rw [CashValue.coi_pp, hnaar]
    norm_num
  have hm : 0 ≤ CashValue.mort_rate_mth CashValue.ctx0 CashValue.mp0 0 := by
    norm_num [CashValue.mort_rate_mth, CashValue.mort_rate,
      CashValue.mort_table_reindexed, CashValue.ctx0, afind]
  exact ⟨hnaar,
    (spec_c10_naar_nonneg CashValue.ctx0 CashValue.mp0 0).1 0 hnaar,
    hcoi,
    hm,
    (spec_c10_naar_nonneg CashValue.ctx0 CashValue.mp0 0).2 0 hcoi hm⟩

/-- C1: for every `t` and every recognized timing string, evaluation of
`pols_if_at(t, timing)` terminates with a value: the `"BEF_MAT"` branch
recurses strictly downward in `t` and is grounded in `pols_if_init()`
at `t = 0`, while the `"BEF_NB"` and `"BEF_DECR"` branches reduce to
the earlier timings at the same `t`. -/
theorem spec_c1_pols_if_at_terminates (ctx : CashValue.Ctx)
    (mp : CashValue.ModelPoint) (t : ℕ) :
    (∃ v, CashValue.pols_if_at ctx mp t ("BEF_MAT") = .ok v)
    ∧ (∃ v, CashValue.pols_if_at ctx mp t ("BEF_NB") = .ok v)
    ∧ (∃ v, CashValue.pols_if_at ctx mp t ("BEF_DECR") = .ok v)
    ∧ CashValue.pols_if_at ctx mp 0 ("BEF_MAT")
        = .ok (CashValue.pols_if_init mp)
    ∧ (∃ d f e, CashValue.pols_if_at ctx mp t ("BEF_DECR") = .ok d
        ∧ CashValue.pols_lapse ctx mp t = .ok f
        ∧ CashValue.pols_death ctx mp t = .ok e
        ∧ CashValue.pols_if_at ctx mp (t + 1) ("BEF_MAT") = .ok (d - f - e))
    ∧ (∃ a m, CashValue.pols_if_at ctx mp t ("BEF_MAT") = .ok a
        ∧ CashValue.pols_maturity ctx mp t = .ok m
        ∧ CashValue.pols_if_at ctx mp t ("BEF_NB") = .ok (a - m))
    ∧ (∃ c, CashValue.pols_if_at ctx mp t ("BEF_NB") = .ok c
        ∧ CashValue.pols_if_at ctx mp t ("BEF_DECR")
            = .ok (c + CashValue.pols_new_biz mp t)) := by
  obtain ⟨⟨a, ha⟩, ⟨m, hm⟩, ⟨c, hc⟩, ⟨d, hd⟩, ⟨e, he⟩, ⟨f, hf⟩⟩ :=
    CashValue.pols_ok ctx mp t
  exact ⟨⟨a, ha⟩, ⟨c, hc⟩, ⟨d, hd⟩, CashValue.pols_mat_zero ctx mp,
    ⟨d, f, e, hd, hf, he, CashValue.pols_mat_succ ctx mp t d e f hd hf he⟩,
    ⟨a, m, ha, hm, CashValue.pols_nb_eq ctx mp t a m ha hm⟩,
    ⟨c, hc, CashValue.pols_decr_eq ctx mp t c hc⟩⟩

/-- C4: a timing or kind string outside the set a cell recognizes makes
that cell fail with the "invalid timing" / "invalid kind" rejection
rather than silently returning a default value. -/
theorem spec_c4_invalid_timing (ctx : CashValue.Ctx)
    (mp : CashValue.ModelPoint) (t : ℕ) (s : String) :
    (s ∉ (["BEF_MAT", "BEF_NB", "BEF_DECR"] : List String) →
      CashValue.pols_if_at ctx mp t s = .error ("invalid timing"))
    ∧ (s ∉ (["BEF_MAT", "BEF_NB", "BEF_FEE"] : List String) →
      CashValue.av_at ctx mp t s = .error ("invalid timing"))
    ∧ (s ∉ (["BEF_PREM", "BEF_FEE", "BEF_INV", "MID_MTH"] : List String) →
      CashValue.av_pp_at ctx mp t s = .error ("invalid timing"))
    ∧ (s ∉ (["DEATH", "LAPSE", "MATURITY"] : List String) →
      CashValue.claim_pp ctx mp t s = .error ("invalid kind"))
    ∧ (s ∉ (["DEATH", "LAPSE", "MATURITY"] : List String) →
      CashValue.claims_from_av ctx mp t s = .error ("invalid kind"))
    ∧ (s ∉ (["DEATH", "LAPSE", "MATURITY"] : List String) →
      CashValue.claims ctx mp t (some s) = .error ("invalid kind")) := by
  refine ⟨?_, ?_, ?_, ?_, ?_, ?_⟩
  · intro h
    simp only [List.mem_cons, List.not_mem_nil, or_false, not_or] at h
    obtain ⟨n1, n2, n3⟩ := h
    simp [CashValue.pols_if_at, n1, n2, n3]
  · intro h
    simp only [List.mem_cons, List.not_mem_nil, or_false, not_or] at h
    obtain ⟨n1, n2, n3⟩ := h
    simp [CashValue.av_at, n1, n2, n3]
  · intro h
    simp only [List.mem_cons, List.not_mem_nil, or_false, not_or] at h
    obtain ⟨n1, n2, n3, n4⟩ := h
    simp [CashValue.av_pp_at, n1, n2, n3, n4]
  · intro h
    simp only [List.mem_cons, List.not_mem_nil, or_false, not_or] at h
    obtain ⟨n1, n2, n3⟩ := h
    simp [CashValue.claim_pp, n1, n2, n3]
  · intro h
    simp only [List.mem_cons, List.not_mem_nil, or_false, not_or] at h
    obtain ⟨n1, n2, n3⟩ := h
    simp [CashValue.claims_from_av, n1, n2, n3]
  · intro h
    simp only [List.mem_cons, List.not_mem_nil, or_false, not_or] at h
    obtain ⟨n1, n2, n3⟩ := h
    simp [CashValue.claims, n1, n2, n3]

/-- Witness for C4 at the unrecognized string `"XYZ"`. -/
theorem spec_c4_invalid_timing_witness :
    CashValue.pols_if_at CashValue.ctx0 CashValue.mp0 0 ("XYZ")
      = .error ("invalid timing")
    ∧ CashValue.av_at CashValue.ctx0 CashValue.mp0 0 ("XYZ")
      = .error ("invalid timing")
    ∧ CashValue.av_pp_at CashValue.ctx0 CashValue.mp0 0 ("XYZ")
      = .error ("invalid timing")
    ∧ CashValue.claim_pp CashValue.ctx0 CashValue.mp0 0 ("XYZ")
      = .error ("invalid kind")
    ∧ CashValue.claims_from_av CashValue.ctx0 CashValue.mp0 0 ("XYZ")
      = .error ("invalid kind")
    ∧ CashValue.claims CashValue.ctx0 CashValue.mp0 0 (some ("XYZ"))
      = .error ("invalid kind") :=
  ⟨(spec_c4_invalid_timing CashValue.ctx0 CashValue.mp0 0 ("XYZ")).1
      (by decide),
   (spec_c4_invalid_timing CashValue.ctx0 CashValue.mp0 0 ("XYZ")).2.1
      (by decide),
   (spec_c4_invalid_timing CashValue.ctx0 CashValue.mp0 0 ("XYZ")).2.2.1
      (by decide),
   (spec_c4_invalid_timing CashValue.ctx0 CashValue.mp0 0 ("XYZ")).2.2.2.1
      (by decide),
   (spec_c4_invalid_timing CashValue.ctx0 CashValue.mp0 0 ("XYZ")).2.2.2.2.1
      (by decide),
   (spec_c4_invalid_timing CashValue.ctx0 CashValue.mp0 0 ("XYZ")).2.2.2.2.2
      (by decide)⟩

/-- C2 counterexample: with the spec's own scenario registry
`count_if(t, "A") = count_if(t-1, "B")`, `count_if(t, "B") =
count_if(t, "A") + 1`, evaluating `count_if(0, "A")` never revisits an
in-progress key (every request uses a new argument tuple), so
evaluation exhausts its resources instead of raising the
circular-evaluation error. -/
theorem spec_c2_counterexample :
    Engine.evaluate Engine.countProg 30
        (("count_if"), [.int 0, .str ("A")]) = .error .fuelOut
    ∧ Engine.evaluate Engine.countProg 60
        (("count_if"), [.int 0, .str ("A")]) = .error .fuelOut :=
  ⟨by decide, by decide⟩

/-- C2 (amended): a key requested again while still in progress on the
active chain fails with the circular-evaluation error naming the chain;
a genuine same-key cycle (`count_if(t, "A") = count_if(t, "B")`,
`count_if(t, "B") = count_if(t, "A") + 1`) raises it, and same-cell
recursion to a different argument tuple (`f(t)` calling `f(t-1)`) is
not an error. -/
theorem spec_c2_circular_amended :
    (∀ (reg : Engine.Registry) (fuel : ℕ) (stack : List Engine.Key)
        (st : Engine.St) (key : Engine.Key),
      afind key st.cache = none → key ∈ stack →
      Engine.evalCall reg fuel stack st key
        = .error (.circular (key :: stack)))
    ∧ Engine.evaluate Engine.countProgCycle 30
        (("count_if"), [.int 0, .str ("A")])
        = .error (.circular [(("count_if"), [.int 0, .str ("A")]),
            (("count_if"), [.int 0, .str ("B")]),
            (("count_if"), [.int 0, .str ("A")])])
    ∧ Engine.runVal Engine.fProg 50 (("f"), [.int 2]) = some (.int 0) :=
  ⟨fun reg fuel stack st key h1 h2 =>
     Engine.run_circular reg fuel stack st key h1 h2,
   by decide, by decide⟩

/-- Witness for the amended C2 at a concrete in-progress chain. -/
theorem spec_c2_circular_amended_witness :
    afind ((("w"), []) : Engine.Key)
        ((⟨[], []⟩ : Engine.St)).cache = none
    ∧ Engine.evalCall [] 0 [(("w"), [])] ⟨[], []⟩ (("w"), [])
        = .error (.circular [(("w"), []), (("w"), [])]) :=
  ⟨by decide,
   spec_c2_circular_amended.1 [] 0 [(("w"), [])] ⟨[], []⟩ (("w"), [])
     (by decide) (by decide)⟩

/-- C3: the memoization scenario: `balance(3)` evaluates to 130,
`balance(0)` afterwards is answered from the cache with 100 and the
same state (so `initial()` is not re-invoked; its call count is 1); in
general a successful top-level evaluation invokes every key at most
once, and re-evaluating the same key afterwards is a pure cache hit
returning the identical value and state. -/
theorem spec_c3_memoization :
    Engine.runVal Engine.balanceProg 100 (("balance"), [.int 3])
      = some (.int 130)
    ∧ Engine.occ (("initial"), [])
        (Engine.runSt Engine.balanceProg 100
          (("balance"), [.int 3])).counts = 1
    ∧ Engine.evalCall Engine.balanceProg 1 []
        (Engine.runSt Engine.balanceProg 100 (("balance"), [.int 3]))
        (("balance"), [.int 0])
        = .ok (.int 100,
            Engine.runSt Engine.balanceProg 100 (("balance"), [.int 3]))
    ∧ (∀ (reg : Engine.Registry) (fuel : ℕ) (key : Engine.Key)
          (v : Engine.Val) (st' : Engine.St),
        Engine.evaluate reg fuel key = .ok (v, st') →
        (∀ k, Engine.occ k st'.counts ≤ 1)
        ∧ ∀ fuel2, Engine.evalCall reg fuel2 [] st' key = .ok (v, st')) :=
  ⟨by decide, by decide, by decide,
   fun reg fuel key v st' h =>
     ⟨Engine.evaluate_counts reg fuel key v st' h,
      fun fuel2 => Engine.evaluate_again reg fuel fuel2 key v st' h⟩⟩

/-- Witness for the general part of C3 at the balance scenario. -/
theorem spec_c3_memoization_witness :
    Engine.evaluate Engine.balanceProg 100 (("balance"), [.int 3])
      = .ok (.int 130,
          Engine.runSt Engine.balanceProg 100 (("balance"), [.int 3]))
    ∧ (∀ k, Engine.occ k
        (Engine.runSt Engine.balanceProg 100
          (("balance"), [.int 3])).counts ≤ 1) :=
  ⟨by decide,
   (spec_c3_memoization.2.2.2 Engine.balanceProg 100
      (("balance"), [.int 3]) (.int 130)
      (Engine.runSt Engine.balanceProg 100 (("balance"), [.int 3]))
      (by decide)).1⟩

/-- C7: determinism and cache immutability: a cache entry, once
written, is never recomputed or mutated by any further evaluation;
re-evaluating a computed key returns the identical value; and
`inv_return_mth` depends on nothing but the exogenous references
(the random series, the exponential map, the scenario id). -/
theorem spec_c7_determinism :
    (∀ (reg : Engine.Registry) (fuel : ℕ) (stack : List Engine.Key)
        (st : Engine.St) (task : Engine.Task) (v : Engine.Val)
        (st' : Engine.St) (k : Engine.Key) (w : Engine.Val),
      Engine.run reg fuel stack st task = .ok (v, st') →
      afind k st.cache = some w → afind k st'.cache = some w)
    ∧ (∀ (reg : Engine.Registry) (fuel fuel2 : ℕ) (key : Engine.Key)
        (v : Engine.Val) (st' : Engine.St),
      Engine.evaluate reg fuel key = .ok (v, st') →
      Engine.evalCall reg fuel2 [] st' key = .ok (v, st'))
    ∧ (∀ (c c' : CashValue.Ctx) (t : ℕ),
      c.expF = c'.expF → c.sqrt112 = c'.sqrt112 →
      c.std_norm_rand = c'.std_norm_rand → c.scen_id = c'.scen_id →
      CashValue.inv_return_mth c t = CashValue.inv_return_mth c' t) :=
  ⟨fun reg fuel stack st task v st' k w h hw =>
     (Engine.run_pres reg fuel stack st task v st' h).1 k w hw,
   fun reg fuel fuel2 key v st' h =>
     Engine.evaluate_again reg fuel fuel2 key v st' h,
   by
     intro c c' t h1 h2 h3 h4
     simp [CashValue.inv_return_mth, CashValue.inv_return_table,
       h1, h2, h3, h4]⟩

/-- Witness for C7: a run over a pre-populated cache preserves the
foreign entry untouched. -/
theorem spec_c7_determinism_witness :
    Engine.run Engine.balanceProg 3 [] ⟨[(((("w"), []) : Engine.Key),
        Engine.Val.int 5)], []⟩ (.call (("initial"), []))
      = .ok (.int 100, ⟨[((("initial"), []), Engine.Val.int 100),
          ((("w"), []), Engine.Val.int 5)], [(("initial"), [])]⟩)
    ∧ afind ((("w"), []) : Engine.Key)
        [((("initial"), []), Engine.Val.int 100),
          ((("w"), []), Engine.Val.int 5)] = some (Engine.Val.int 5) :=
  ⟨by decide,
   spec_c7_determinism.1 Engine.balanceProg 3 []
     ⟨[((("w"), []), Engine.Val.int 5)], []⟩ (.call (("initial"), []))
     (.int 100)
     ⟨[((("initial"), []), Engine.Val.int 100),
        ((("w"), []), Engine.Val.int 5)], [(("initial"), [])]⟩
     (("w"), []) (.int 5) (by decide) (by decide)⟩
